import Mathlib

/-!
Verification of the Deadline Computation Engine of the legal-toolkit
repository (src/legal_toolkit/holidays.py and src/legal_toolkit/deadlines.py,
with callers in src/app.py and src/tests).

Shallow embedding conventions:

* A calendar date is a natural number n (the Python proleptic ordinal minus
  one), so that the weekday of n is n % 7 with 0 = Monday, ..., 5 = Saturday,
  6 = Sunday.  This matches Python, where date.weekday() of ordinal m is
  (m - 1) % 7.
* A time of day is the number of seconds since midnight; the 16:30 cutoff of
  CPR 6.26 is 59400 seconds.  Python compares datetime.time values
  lexicographically, which on (hour, minute, second) agrees with comparison
  of seconds since midnight.
* A holiday calendar (the HolidaySet) is a List Nat of dates; only
  membership is ever consulted, exactly as in the Python set.
* The unbounded while-loop in BankHolidayProvider.next_business_day is
  embedded as a fuel-indexed search nbdAux; the fuel 7 * (length + 1) is
  proved sufficient (exists_business_in_window), so the embedded function
  agrees with the loop on every input on which the loop terminates, and the
  loop does terminate for every finite calendar.
* The three-tier data loading of BankHolidayProvider._load_data is embedded
  as a function of an explicit environment LoadEnv recording, for each tier,
  whether the fetch, the file operations and the JSON decode succeed and
  with which snapshot.  The uncaught fatal paths of the source are all
  represented: an OSError on the cache write after a successful live fetch
  (the outer except catches only RequestException and JSONDecodeError), an
  OSError on opening the cache or seed file inside the except handler, a
  JSONDecodeError on the seed file (whose json.load has no try of its own),
  and a ValueError or KeyError while reducing the event list of the
  requested jurisdiction (the strptime comprehension).  An event that would
  raise during reduction — a malformed or missing date string, or a
  jurisdiction value of the wrong shape — is modelled as a none entry in
  the event list, since all of these are observationally the same uncaught
  exception raised while reducing that value.
-/

namespace LegalToolkit

/-- A raw calendar snapshot, as decoded from JSON: a mapping from
jurisdiction identifier to the list of event dates
(src/legal_toolkit/holidays.py, the shape consumed by `_load_data`).
An empty outer list models the empty JSON object, which is falsy in
Python.  An event entry of `none` models an event on which the reduction
at lines 65-66 raises (a date string strptime cannot parse, a missing
date key, or a jurisdiction value of the wrong shape); a `some d` entry
is an event whose date parses to the day number `d`. -/
abbrev Snapshot := List (String × List (Option Nat))

/-- Membership test of `BankHolidayProvider.is_holiday`
(src/legal_toolkit/holidays.py line 68). -/
def is_holiday (hol : List Nat) (d : Nat) : Bool :=
  hol.contains d

/-- Business-day predicate of `BankHolidayProvider.is_business_day`
(src/legal_toolkit/holidays.py lines 72-77): false on Saturday and Sunday
(weekday index 5 or 6) and on bank holidays, true otherwise. -/
def is_business_day (hol : List Nat) (d : Nat) : Bool :=
  if d % 7 ≥ 5 then false else ! is_holiday hol d

/-- Fuel-indexed linear search used to embed the while-loop of
`BankHolidayProvider.next_business_day` (src/legal_toolkit/holidays.py
lines 79-84): starting at `cur`, return the first date at which
`is_business_day` holds, or `none` when the fuel runs out. -/
def nbdAux (hol : List Nat) : Nat → Nat → Option Nat
  | 0, _ => none
  | fuel + 1, cur =>
    if is_business_day hol cur = true then some cur
    else nbdAux hol fuel (cur + 1)

/-- `BankHolidayProvider.next_business_day`
(src/legal_toolkit/holidays.py lines 79-84): the loop starts at the day
after the input and walks forward one day at a time until it reaches a
business day.  The fuel `7 * (hol.length + 1)` is proved sufficient below,
so the `getD` default is never used and this function equals the
(terminating) Python loop on every input. -/
def next_business_day (hol : List Nat) (d : Nat) : Nat :=
  (nbdAux hol (7 * (hol.length + 1)) (d + 1)).getD (d + 1)

/-- `BankHolidayProvider.add_business_days`
(src/legal_toolkit/holidays.py lines 86-91): apply `next_business_day`
exactly `n` times starting from `start`. -/
def add_business_days (hol : List Nat) (start : Nat) : Nat → Nat
  | 0 => start
  | n + 1 => next_business_day hol (add_business_days hol start n)

/-- A transmission: a calendar date plus a time of day in seconds since
midnight (the `sent_at : datetime.datetime` argument of
`calculate_deemed_service` in src/legal_toolkit/deadlines.py). -/
structure Transmission where
  date : Nat
  tod : Nat
  deriving DecidableEq, Repr

/-- The 16:30 cutoff of CPR 6.26 (src/legal_toolkit/deadlines.py line 29),
in seconds since midnight. -/
def cutoff_seconds : Nat := 16 * 3600 + 30 * 60

/-- Step 1 of `calculate_deemed_service` (src/legal_toolkit/deadlines.py
lines 28-44): if the transmission date is not a business day, or its time
of day is strictly after the 16:30 cutoff, the effective step date is the
next business day; otherwise it is the transmission date unchanged. -/
def effective_step (hol : List Nat) (t : Transmission) : Nat :=
  if is_business_day hol t.date = false ∨ cutoff_seconds < t.tod then
    next_business_day hol t.date
  else t.date

/-- Step 2 of `calculate_deemed_service` (src/legal_toolkit/deadlines.py
lines 48-50): deemed service falls on the second business day after the
effective step date. -/
def deemed_service_date (hol : List Nat) (t : Transmission) : Nat :=
  add_business_days hol (effective_step hol t) 2

/-- `calculate_deemed_service` (src/legal_toolkit/deadlines.py lines 21-73):
returns the pair (deemed service date, filing deadline).  The base deadline
is the deemed service date plus 14 calendar days; if it is not a business
day it is advanced by a single `next_business_day` call. -/
def calculate_deemed_service (hol : List Nat) (t : Transmission) : Nat × Nat :=
  let deemed := deemed_service_date hol t
  let base := deemed + 14
  let final := if is_business_day hol base = false then next_business_day hol base else base
  (deemed, final)

/-- Modelled from the spec: the revision of `calculate_deemed_service` that
accepts an `extension_days` argument is not under src/ — only its callers
are (src/app.py line 99 and src/tests/test_extension.py line 14 both pass
`extension_days=`), while src/legal_toolkit/deadlines.py line 21 lacks the
parameter.  Following the spec, section 4.3 stages 4-5 and the section 7
InvalidExtension contract: extensionDays outside [0, 28] is rejected as a
contract violation before any date arithmetic runs; otherwise the extension
is added to the base deadline in calendar days and the single business-day
snap is applied to the post-extension deadline. -/
def calculate_deemed_service_ext (hol : List Nat) (t : Transmission)
    (extension_days : Int) : Except String (Nat × Nat) :=
  if extension_days < 0 ∨ 28 < extension_days then .error "InvalidExtension"
  else
    let deemed := deemed_service_date hol t
    let base := deemed + 14
    let extended := base + extension_days.toNat
    let final :=
      if is_business_day hol extended = false then next_business_day hol extended else extended
    .ok (deemed, final)

/-- The environment of one `BankHolidayProvider._load_data` run
(src/legal_toolkit/holidays.py lines 32-66): for each tier, whether the
fetch, the file operations and the JSON decode succeed and with which
snapshot.  `live = none` models any requests failure, HTTP error status or
JSON decode failure of the live tier (all caught, entering the fallback
chain).  `cacheWriteOk = false` models an OSError while writing the cache
after a successful live fetch (line 45; uncaught, since the outer except
catches only RequestException and JSONDecodeError).  `cacheReadable` and
`seedReadable` model whether opening the existing cache or seed file
succeeds (lines 51 and 58; an OSError there is raised inside the except
handler and is uncaught).  `cacheContent = none` (file present and
readable) models a cache file that raises JSONDecodeError (caught, line
53); `seedContent = none` (file present and readable) models a malformed
seed file, whose json.load at line 59 has no try of its own. -/
structure LoadEnv where
  live : Option Snapshot
  cacheWriteOk : Bool
  cacheExists : Bool
  cacheReadable : Bool
  cacheContent : Option Snapshot
  seedExists : Bool
  seedReadable : Bool
  seedContent : Option Snapshot
  deriving DecidableEq, Repr

/-- Python truthiness of the optional snapshot held in the local variable
`data`: `None` and the empty dictionary are falsy. -/
def snapshotFalsy : Option Snapshot → Bool
  | none => true
  | some s => s.isEmpty

/-- The snapshot held in `data` after the cache step when the live tier
failed: the parsed cache content when the cache file exists (and was
readable), `None` otherwise. -/
def cacheData (env : LoadEnv) : Option Snapshot :=
  if env.cacheExists then env.cacheContent else none

/-- Whether the final reduction of `_load_data` raises
(src/legal_toolkit/holidays.py lines 65-66): it does exactly when the data
is truthy, holds the requested jurisdiction, and the event list of that
jurisdiction contains an entry on which strptime or the dictionary access
raises. -/
def reduceErrors (jur : String) (data : Option Snapshot) : Bool :=
  match data with
  | none => false
  | some s =>
    if s.isEmpty then false
    else
      match s.lookup jur with
      | none => false
      | some events => events.contains none

/-- The final reduction of `_load_data` (src/legal_toolkit/holidays.py
lines 61-66): if `data` is falsy or omits the requested jurisdiction,
return the empty set; otherwise reduce the event list of the jurisdiction,
raising (ValueError or KeyError, uncaught) when some event does not
reduce and returning the event dates when all do. -/
def reduceSnapshot (jur : String) (data : Option Snapshot) : Except String (List Nat) :=
  match data with
  | none => .ok []
  | some s =>
    if s.isEmpty then .ok []
    else
      match s.lookup jur with
      | none => .ok []
      | some events =>
        if events.contains none then .error "ValueError"
        else .ok (events.filterMap id)

/-- `BankHolidayProvider._load_data` (src/legal_toolkit/holidays.py lines
32-66).  Tier order: live fetch (on success the cache write, whose OSError
is uncaught); on live failure the cache file if it exists — opening it can
raise an uncaught OSError, a decode failure is caught and leaves `data`
falsy; if `data` is still falsy and the seed file exists, the seed file —
opening it can raise an uncaught OSError and its decode, unlike the cache
decode, is not wrapped in a try block, so a malformed seed propagates
JSONDecodeError.  Finally the surviving snapshot is reduced, which can
itself raise on a malformed event. -/
def load_data (jur : String) (env : LoadEnv) : Except String (List Nat) :=
  match env.live with
  | some d =>
    if env.cacheWriteOk = false then .error "OSError"
    else reduceSnapshot jur (some d)
  | none =>
    if env.cacheExists = true ∧ env.cacheReadable = false then .error "OSError"
    else
      if snapshotFalsy (cacheData env) = true ∧ env.seedExists = true then
        if env.seedReadable = false then .error "OSError"
        else
          match env.seedContent with
          | some d => reduceSnapshot jur (some d)
          | none => .error "JSONDecodeError"
      else reduceSnapshot jur (cacheData env)

/-- Everything a successful run of the fuelled search guarantees: the result
is at or after the start, it is a business day, and no date from the start
up to it is a business day. -/
theorem nbdAux_spec (hol : List Nat) :
    ∀ fuel cur r : Nat, nbdAux hol fuel cur = some r →
      cur ≤ r ∧ is_business_day hol r = true ∧
        ∀ x, cur ≤ x → x < r → is_business_day hol x = false := by
  intro fuel
  induction fuel with
  | zero => intro cur r h; simp [nbdAux] at h
  | succ f ih =>
    intro cur r h
    by_cases hb : is_business_day hol cur = true
    · rw [nbdAux, if_pos hb] at h
      cases h
      exact ⟨Nat.le_refl _, hb, fun x hx1 hx2 => absurd (Nat.lt_of_le_of_lt hx1 hx2) (Nat.lt_irrefl _)⟩
    · rw [nbdAux, if_neg hb] at h
      obtain ⟨h1, h2, h3⟩ := ih (cur + 1) r h
      refine ⟨Nat.le_of_succ_le h1, h2, fun x hx1 hx2 => ?_⟩
      rcases Nat.eq_or_lt_of_le hx1 with heq | hlt
      · rw [← heq]; exact Bool.eq_false_iff.mpr hb
      · exact h3 x hlt hx2

/-- If some date within the fuel window is a business day, the fuelled
search succeeds. -/
theorem nbdAux_isSome (hol : List Nat) :
    ∀ fuel cur : Nat, (∃ i, i < fuel ∧ is_business_day hol (cur + i) = true) →
      (nbdAux hol fuel cur).isSome = true := by
  intro fuel
  induction fuel with
  | zero => intro cur h; obtain ⟨i, hi, _⟩ := h; omega
  | succ f ih =>
    intro cur h
    by_cases hb : is_business_day hol cur = true
    · rw [nbdAux, if_pos hb]; rfl
    · rw [nbdAux, if_neg hb]
      obtain ⟨i, hi, hbi⟩ := h
      rcases i with _ | j
      · exact absurd hbi hb
      · refine ih (cur + 1) ⟨j, by omega, ?_⟩
        have : cur + 1 + j = cur + (j + 1) := by omega
        rw [this]; exact hbi

/-- Pigeonhole bound: every window of 7 * (hol.length + 1) consecutive
dates contains a business day, because it contains hol.length + 1 distinct
Mondays while hol has at most hol.length members. -/
theorem exists_business_in_window (hol : List Nat) (s : Nat) :
    ∃ i, i < 7 * (hol.length + 1) ∧ is_business_day hol (s + i) = true := by
  by_contra hcon
  push_neg at hcon
  have hall : ∀ i, i < 7 * (hol.length + 1) → is_business_day hol (s + i) = false := by
    intro i hi
    exact Bool.eq_false_iff.mpr (hcon i hi)
  set off := (7 - s % 7) % 7 with hoffdef
  have hoff7 : off < 7 := Nat.mod_lt _ (by omega)
  have hmon : (s + off) % 7 = 0 := by omega
  set g : Fin (hol.length + 1) → Nat := fun j => s + off + 7 * j.val with hgdef
  have hg_mem : ∀ j : Fin (hol.length + 1), g j ∈ hol := by
    intro j
    have hjlt : (j : Nat) < hol.length + 1 := j.isLt
    have hwin : off + 7 * j.val < 7 * (hol.length + 1) := by omega
    have hbf := hall (off + 7 * j.val) hwin
    have harr : s + (off + 7 * j.val) = g j := by simp [hgdef]; omega
    rw [harr] at hbf
    have hwk : g j % 7 = 0 := by simp [hgdef]; omega
    rw [is_business_day, if_neg (by omega)] at hbf
    have hcontains : is_holiday hol (g j) = true := by
      cases hch : is_holiday hol (g j) with
      | false => rw [hch] at hbf; simp at hbf
      | true => rfl
    rw [is_holiday] at hcontains
    exact List.mem_of_elem_eq_true hcontains
  have hg_inj : Function.Injective g := by
    intro j k hjk
    have : 7 * j.val = 7 * k.val := by simp [hgdef] at hjk; omega
    exact Fin.ext (by omega)
  have hsub : Finset.image g Finset.univ ⊆ hol.toFinset := by
    intro x hx
    obtain ⟨j, _, hj⟩ := Finset.mem_image.mp hx
    rw [← hj]
    exact List.mem_toFinset.mpr (hg_mem j)
  have hcard1 : (Finset.image g Finset.univ).card = hol.length + 1 := by
    rw [Finset.card_image_of_injective _ hg_inj, Finset.card_univ, Fintype.card_fin]
  have hcard2 : hol.toFinset.card ≤ hol.length := List.toFinset_card_le hol
  have := Finset.card_le_card hsub
  omega

/-- The fuelled search underlying `next_business_day` always succeeds, so
the embedded function computes exactly what the Python while-loop does. -/
theorem next_business_day_eq_some (hol : List Nat) (d : Nat) :
    nbdAux hol (7 * (hol.length + 1)) (d + 1) = some (next_business_day hol d) := by
  have h := nbdAux_isSome hol (7 * (hol.length + 1)) (d + 1)
    (exists_business_in_window hol (d + 1))
  obtain ⟨r, hr⟩ := Option.isSome_iff_exists.mp h
  rw [next_business_day, hr]
  rfl

/-- The next business day is strictly after the input date. -/
theorem next_business_day_gt (hol : List Nat) (d : Nat) :
    d < next_business_day hol d := by
  have h := (nbdAux_spec hol _ _ _ (next_business_day_eq_some hol d)).1
  omega

/-- The next business day is a business day. -/
theorem next_business_day_isBusiness (hol : List Nat) (d : Nat) :
    is_business_day hol (next_business_day hol d) = true :=
  (nbdAux_spec hol _ _ _ (next_business_day_eq_some hol d)).2.1

/-- No date strictly between the input and the next business day is a
business day: the result is the earliest later business day. -/
theorem next_business_day_min (hol : List Nat) (d x : Nat) (h1 : d < x)
    (h2 : x < next_business_day hol d) : is_business_day hol x = false :=
  (nbdAux_spec hol _ _ _ (next_business_day_eq_some hol d)).2.2 x h1 h2

/-- Uniqueness: any date strictly after the input that is a business day
and is preceded only by non-business days is the next business day. -/
theorem next_business_day_eq_of (hol : List Nat) (d r : Nat) (h1 : d < r)
    (h2 : is_business_day hol r = true)
    (h3 : ∀ x, d < x → x < r → is_business_day hol x = false) :
    next_business_day hol d = r := by
  rcases Nat.lt_trichotomy (next_business_day hol d) r with hlt | heq | hgt
  · have := h3 (next_business_day hol d) (next_business_day_gt hol d) hlt
    rw [next_business_day_isBusiness hol d] at this
    cases this
  · exact heq
  · have := next_business_day_min hol d r h1 hgt
    rw [h2] at this
    cases this

/-- Adding two business days is two applications of `next_business_day`. -/
theorem add_business_days_two (hol : List Nat) (s : Nat) :
    add_business_days hol s 2 = next_business_day hol (next_business_day hol s) := rfl

/-- The result of adding one or more business days is a business day. -/
theorem add_business_days_isBusiness (hol : List Nat) (s n : Nat) :
    is_business_day hol (add_business_days hol s (n + 1)) = true :=
  next_business_day_isBusiness hol (add_business_days hol s n)

/-- C5: the effective step date equals the next business day after the
transmission date exactly when the transmission date is not a business day
or the time of day is strictly after the 16:30 cutoff; otherwise it is the
transmission date unchanged, and a transmission at exactly 16:30 is not
after the cutoff. -/
theorem effective_step_cutoff_rule (hol : List Nat) (t : Transmission) :
    (effective_step hol t = next_business_day hol t.date ↔
      (is_business_day hol t.date = false ∨ cutoff_seconds < t.tod)) ∧
    (is_business_day hol t.date = true → t.tod ≤ cutoff_seconds →
      effective_step hol t = t.date) := by
  constructor
  · constructor
    · intro h
      by_contra hc
      rw [effective_step, if_neg hc] at h
      have := next_business_day_gt hol t.date
      omega
    · intro h
      rw [effective_step, if_pos h]
  · intro hb hle
    rw [effective_step, if_neg]
    rintro (hf | hlt)
    · rw [hb] at hf; cases hf
    · omega

/-- C5 witness: a transmission on a Tuesday at 17:00 (after the cutoff)
steps to Wednesday, and a transmission at exactly 16:30 on a business day
keeps its date. -/
theorem effective_step_cutoff_rule_witness :
    effective_step ([] : List Nat) ⟨1, 61200⟩ = next_business_day [] 1 ∧
    next_business_day ([] : List Nat) 1 = 2 ∧
    effective_step ([] : List Nat) ⟨1, 59400⟩ = 1 := by
  refine ⟨?_, by decide, ?_⟩
  · exact (effective_step_cutoff_rule [] ⟨1, 61200⟩).1.mpr (Or.inr (by decide))
  · exact (effective_step_cutoff_rule [] ⟨1, 59400⟩).2 (by decide) (by decide)

/-- C6: the deemed service date returned by the calculator is
addBusinessDays(effectiveStepDate, 2), that is, the second business day
after the effective step date; in particular a Saturday 10:00 transmission
(day 5 of the week) has effective step Monday (day 7) and deemed service
Wednesday (day 9). -/
theorem deemed_service_two_business_days (hol : List Nat) (t : Transmission) :
    (calculate_deemed_service hol t).1 =
      add_business_days hol (effective_step hol t) 2 ∧
    (calculate_deemed_service hol t).1 =
      next_business_day hol (next_business_day hol (effective_step hol t)) ∧
    effective_step ([] : List Nat) ⟨5, 36000⟩ = 7 ∧
    (calculate_deemed_service ([] : List Nat) ⟨5, 36000⟩).1 = 9 :=
  ⟨rfl, rfl, by decide, by decide⟩

/-- C7: the filing deadline is the base deadline (deemed service date plus
14 calendar days) advanced by a single next-business-day call when the base
deadline is not a business day, and returned unchanged when it is; in the
concrete Boxing-Day shape, a deemed service on a Tuesday (day 8) with a
holiday 14 calendar days later (day 22) snaps the deadline to day 23. -/
theorem filing_deadline_base_and_snap (hol : List Nat) (t : Transmission) :
    ((calculate_deemed_service hol t).2 =
      if is_business_day hol ((calculate_deemed_service hol t).1 + 14) = false
      then next_business_day hol ((calculate_deemed_service hol t).1 + 14)
      else (calculate_deemed_service hol t).1 + 14) ∧
    (is_business_day hol ((calculate_deemed_service hol t).1 + 14) = true →
      (calculate_deemed_service hol t).2 = (calculate_deemed_service hol t).1 + 14) ∧
    calculate_deemed_service [22] ⟨4, 36000⟩ = (8, 23) := by
  refine ⟨rfl, ?_, by decide⟩
  intro hb
  have h1 : (calculate_deemed_service hol t).2 =
      if is_business_day hol ((calculate_deemed_service hol t).1 + 14) = false
      then next_business_day hol ((calculate_deemed_service hol t).1 + 14)
      else (calculate_deemed_service hol t).1 + 14 := rfl
  rw [h1, if_neg (by simp [hb])]

/-- C7 witness: a Tuesday 10:00 transmission with no holidays gives deemed
service Thursday (day 3) and a base deadline (day 17, a Thursday) that is a
business day and is returned unchanged. -/
theorem filing_deadline_base_and_snap_witness :
    is_business_day ([] : List Nat) ((calculate_deemed_service [] ⟨1, 36000⟩).1 + 14) = true ∧
    (calculate_deemed_service ([] : List Nat) ⟨1, 36000⟩).2 =
      (calculate_deemed_service [] ⟨1, 36000⟩).1 + 14 :=
  ⟨by decide, (filing_deadline_base_and_snap [] ⟨1, 36000⟩).2.1 (by decide)⟩

/-- C9: for every holiday calendar and transmission, the filing deadline is
strictly later than the deemed service date. -/
theorem filing_deadline_after_deemed_service (hol : List Nat) (t : Transmission) :
    (calculate_deemed_service hol t).1 < (calculate_deemed_service hol t).2 := by
  have h1 : (calculate_deemed_service hol t).1 = deemed_service_date hol t := rfl
  have h2 : (calculate_deemed_service hol t).2 =
      if is_business_day hol (deemed_service_date hol t + 14) = false
      then next_business_day hol (deemed_service_date hol t + 14)
      else deemed_service_date hol t + 14 := rfl
  rw [h1, h2]
  by_cases hb : is_business_day hol (deemed_service_date hol t + 14) = false
  · rw [if_pos hb]
    have := next_business_day_gt hol (deemed_service_date hol t + 14)
    omega
  · rw [if_neg hb]
    omega

/-- C10: the deemed service date returned by the calculator is itself a
business day, because the two-step business-day addition ends on the result
of a next-business-day call. -/
theorem deemed_service_is_business_day (hol : List Nat) (t : Transmission) :
    is_business_day hol ((calculate_deemed_service hol t).1) = true := by
  show is_business_day hol (deemed_service_date hol t) = true
  exact add_business_days_isBusiness hol (effective_step hol t) 1

/-- C1: for every in-range extension, the extension-accepting calculator
(modelled from the spec, its revision being absent from src) adds the
extension to the base deadline in calendar days before the single
business-day snap, and a zero extension reproduces the extension-free
calculator exactly. -/
theorem extension_added_in_calendar_days (hol : List Nat) (t : Transmission)
    (extension_days : Int) (h0 : 0 ≤ extension_days) (h28 : extension_days ≤ 28) :
    calculate_deemed_service_ext hol t extension_days =
      .ok (deemed_service_date hol t,
        if is_business_day hol (deemed_service_date hol t + 14 + extension_days.toNat) = false
        then next_business_day hol (deemed_service_date hol t + 14 + extension_days.toNat)
        else deemed_service_date hol t + 14 + extension_days.toNat) ∧
    calculate_deemed_service_ext hol t 0 = .ok (calculate_deemed_service hol t) := by
  constructor
  · simp only [calculate_deemed_service_ext]
    rw [if_neg (by omega)]
  · simp only [calculate_deemed_service_ext]
    rw [if_neg (by omega)]
    rfl

/-- C1 witness: a Wednesday 10:00 transmission (day 2) with Thursday and
Friday holidays gives deemed service day 8 and, under a 28-day extension,
filing deadline day 50, exactly 42 calendar days after deemed service. -/
theorem extension_added_in_calendar_days_witness :
    calculate_deemed_service_ext [3, 4] ⟨2, 36000⟩ 28 = .ok (8, 50) ∧ 50 - 8 = 42 := by
  have h := extension_added_in_calendar_days [3, 4] ⟨2, 36000⟩ 28 (by decide) (by decide)
  exact ⟨h.1.trans rfl, by decide⟩

/-- C2: every extension outside the closed interval [0, 28] is rejected by
the extension-accepting calculator (modelled from the spec) with an
InvalidExtension error, for every calendar and transmission, before any
date arithmetic runs. -/
theorem invalid_extension_rejected (hol : List Nat) (t : Transmission)
    (extension_days : Int) (h : extension_days < 0 ∨ 28 < extension_days) :
    calculate_deemed_service_ext hol t extension_days = .error "InvalidExtension" := by
  simp only [calculate_deemed_service_ext]
  rw [if_pos h]

/-- C2 witness: extensions of 29 days and of minus one day are both
rejected. -/
theorem invalid_extension_rejected_witness :
    calculate_deemed_service_ext [] ⟨0, 0⟩ 29 = .error "InvalidExtension" ∧
    calculate_deemed_service_ext [] ⟨0, 0⟩ (-1) = .error "InvalidExtension" :=
  ⟨invalid_extension_rejected [] ⟨0, 0⟩ 29 (Or.inr (by decide)),
   invalid_extension_rejected [] ⟨0, 0⟩ (-1) (Or.inl (by decide))⟩

/-- C3 counterexample: with a cache-less environment and a seed holding the
requested jurisdiction, a live snapshot that parses but omits the requested
jurisdiction yields success with an empty holiday set, while an actual
decode failure at the live tier falls through and yields the seed data —
the two are not treated identically, refuting the claim at this input. -/
theorem missing_jurisdiction_not_fallthrough_cex :
    load_data "england-and-wales"
        ⟨some [("scotland", [some 100])], true, false, true, none,
          true, true, some [("england-and-wales", [some 42])]⟩ =
      Except.ok [] ∧
    load_data "england-and-wales"
        ⟨none, true, false, true, none,
          true, true, some [("england-and-wales", [some 42])]⟩ =
      Except.ok [42] ∧
    (Except.ok ([] : List Nat) : Except String (List Nat)) ≠ Except.ok [42] := by
  refine ⟨rfl, rfl, fun h => ?_⟩
  injection h with h2
  exact absurd h2 (by decide)

/-- C3 amended: a snapshot that parses but omits the requested jurisdiction
does not fall through to the next tier; it is reduced to an empty holiday
set and returned as success, both when it arrives at the live tier (with
the subsequent cache write succeeding) and when it arrives (non-empty)
from a readable cache file. -/
theorem missing_jurisdiction_yields_empty_set (jur : String) (d : Snapshot)
    (env : LoadEnv) (hmiss : d.lookup jur = none)
    (hcase : (env.live = some d ∧ env.cacheWriteOk = true) ∨
      (env.live = none ∧ env.cacheExists = true ∧ env.cacheReadable = true ∧
        env.cacheContent = some d ∧ d.isEmpty = false)) :
    load_data jur env = .ok [] := by
  rcases hcase with ⟨h, hw⟩ | ⟨h1, h2, h3, h4, h5⟩
  · simp only [load_data, h, hw]
    by_cases he : d.isEmpty = true <;> simp [reduceSnapshot, he, hmiss]
  · simp only [load_data, cacheData, h1, h2, h3, h4, if_true]
    simp [snapshotFalsy, h5, reduceSnapshot, hmiss]

/-- C3 amended witness: the live snapshot naming only scotland yields an
empty set for england-and-wales. -/
theorem missing_jurisdiction_yields_empty_set_witness :
    load_data "england-and-wales"
        ⟨some [("scotland", [some 100])], true, false, true, none,
          true, true, some [("england-and-wales", [some 42])]⟩ =
      .ok [] :=
  missing_jurisdiction_yields_empty_set "england-and-wales" [("scotland", [some 100])]
    ⟨some [("scotland", [some 100])], true, false, true, none,
      true, true, some [("england-and-wales", [some 42])]⟩
    rfl (Or.inl ⟨rfl, rfl⟩)

/-- C4 counterexample: when the live fetch fails, no cache file exists, and
the bundled seed file exists but is malformed, the loader propagates the
decode error to its caller instead of returning a best-effort result,
refuting the never-raises claim at this input. -/
theorem load_data_raises_on_malformed_seed_cex :
    load_data "england-and-wales" ⟨none, true, false, true, none, true, true, none⟩ =
      Except.error "JSONDecodeError" := rfl

/-- The reduction of a snapshot raises exactly when `reduceErrors` says
so. -/
theorem reduceSnapshot_error_iff (jur : String) (data : Option Snapshot) :
    (∃ e, reduceSnapshot jur data = .error e) ↔ reduceErrors jur data = true := by
  cases data with
  | none => simp [reduceSnapshot, reduceErrors]
  | some s =>
    by_cases he : s.isEmpty = true
    · simp [reduceSnapshot, reduceErrors, he]
    · cases hl : s.lookup jur with
      | none => simp [reduceSnapshot, reduceErrors, he, hl]
      | some events =>
        by_cases hc : (none : Option Nat) ∈ events <;>
          simp [reduceSnapshot, reduceErrors, he, hl, hc]

/-- C4 amended: resolution can raise a fatal error, and does so on exactly
these paths: a live success whose cache write fails (uncaught OSError) or
whose snapshot does not reduce (uncaught ValueError on a malformed event);
on live failure, a cache file that exists but cannot be opened (uncaught
OSError); on fallthrough, a seed file that cannot be opened, does not
decode, or does not reduce; and a surviving cache snapshot that does not
reduce.  In every other environment it returns a holiday set without
error.  Moreover the returned value carries no source tier: a live-tier
success and a seed-tier fallback with the same snapshot give
indistinguishable results. -/
theorem load_data_error_characterization (jur : String) (env : LoadEnv) :
    ((∃ e, load_data jur env = .error e) ↔
      ((∃ d, env.live = some d ∧
          (env.cacheWriteOk = false ∨ reduceErrors jur (some d) = true)) ∨
       (env.live = none ∧ env.cacheExists = true ∧ env.cacheReadable = false) ∨
       (env.live = none ∧ ¬(env.cacheExists = true ∧ env.cacheReadable = false) ∧
         snapshotFalsy (cacheData env) = true ∧ env.seedExists = true ∧
         (env.seedReadable = false ∨ env.seedContent = none ∨
          (∃ d, env.seedContent = some d ∧ reduceErrors jur (some d) = true))) ∨
       (env.live = none ∧ ¬(env.cacheExists = true ∧ env.cacheReadable = false) ∧
         ¬(snapshotFalsy (cacheData env) = true ∧ env.seedExists = true) ∧
         reduceErrors jur (cacheData env) = true))) ∧
    load_data "england-and-wales"
        ⟨some [("england-and-wales", [some 42])], true, false, true, none,
          false, true, none⟩ =
      load_data "england-and-wales"
        ⟨none, true, false, true, none,
          true, true, some [("england-and-wales", [some 42])]⟩ := by
  refine ⟨?_, rfl⟩
  cases hl : env.live with
  | some d =>
    by_cases hw : env.cacheWriteOk = false
    · simp [load_data, hl, hw, reduceSnapshot_error_iff]
    · simp [load_data, hl, hw, reduceSnapshot_error_iff]
  | none =>
    by_cases h1 : env.cacheExists = true ∧ env.cacheReadable = false
    · simp [load_data, hl, h1]
    · by_cases h2 : snapshotFalsy (cacheData env) = true ∧ env.seedExists = true
      · by_cases h3 : env.seedReadable = false
        · simp [load_data, hl, h1, h2, h3]
        · cases hs : env.seedContent with
          | some d => simp [load_data, hl, h1, h2, h3, hs, reduceSnapshot_error_iff]
          | none => simp [load_data, hl, h1, h2, h3, hs]
      · simp [load_data, hl, h1, h2, reduceSnapshot_error_iff]
        exact fun hf hs _ => absurd ⟨hf, hs⟩ h2

/-- C8 counterexample: the search in next_business_day is not bounded by a
small max-lookahead and never reports a defensive error — fed a corrupted
calendar marking the 366 consecutive days after the input as holidays, it
silently walks the whole run (every one of those days is a non-business
day) and returns day 367, rather than reporting lookahead exhaustion. -/
theorem next_business_day_unbounded_search_cex :
    next_business_day (List.range' 1 366) 0 = 367 ∧
    is_business_day (List.range' 1 366) 1 = false ∧
    is_business_day (List.range' 1 366) 366 = false := by
  refine ⟨?_, by decide, by decide⟩
  apply next_business_day_eq_of
  · omega
  · decide
  · intro x h1 h2
    have hx : x ∈ List.range' 1 366 := List.mem_range'_1.mpr ⟨by omega, by omega⟩
    rw [is_business_day]
    by_cases h5 : x % 7 ≥ 5
    · rw [if_pos h5]
    · rw [if_neg h5]
      have hel : is_holiday (List.range' 1 366) x = true := by
        rw [is_holiday]
        exact List.elem_eq_true_of_mem hx
      rw [hel]
      rfl

/-- C8 amended: next_business_day is strictly greater than its input, is a
business day, and is the earliest later business day; the underlying search
terminates on every finite calendar because the fuel 7 * (length + 1) is
provably sufficient — but the source loop itself is unbounded and has no
defensive lookahead error. -/
theorem next_business_day_strict_earliest (hol : List Nat) (d : Nat) :
    d < next_business_day hol d ∧
    is_business_day hol (next_business_day hol d) = true ∧
    (∀ x, d < x → x < next_business_day hol d → is_business_day hol x = false) ∧
    (nbdAux hol (7 * (hol.length + 1)) (d + 1)).isSome = true := by
  refine ⟨next_business_day_gt hol d, next_business_day_isBusiness hol d,
    next_business_day_min hol d, ?_⟩
  rw [next_business_day_eq_some]
  rfl

/-- C8 amended witness: with Thursday and Friday (days 3 and 4) as
holidays, the next business day after Wednesday day 2 is Monday day 7,
strictly later, a business day, with the skipped Saturday day 5 not a
business day. -/
theorem next_business_day_strict_earliest_witness :
    2 < next_business_day [3, 4] 2 ∧
    is_business_day [3, 4] (next_business_day [3, 4] 2) = true ∧
    is_business_day [3, 4] 5 = false := by
  have h := next_business_day_strict_earliest [3, 4] 2
  exact ⟨h.1, h.2.1, h.2.2.1 5 (by decide) (by decide)⟩

end LegalToolkit
